import Mathlib

/-!
Shallow embedding of the evolutionary signaling-game notebook
(`4_Evo_Signaling_Game_Urn.ipynb`): the `Gene` genetic representation,
the `UrnAgent` reinforcing-urn learner, the `SignalingGameEnv` two-role
environment, the configuration cell and the generational-replacement loop.

Stochastic library calls (`rng.uniform`, `rng.integers`, `rng.choice`,
`rng.geometric`) are modelled by passing their draws as explicit oracle
arguments; the range contracts of those draws (for instance that
`rng.uniform(lo, hi)` lands in `[lo, hi]`) appear as hypotheses of the
theorems.  Floating-point values are embedded as rationals.
-/

namespace M31

/-! ## List helper lemmas -/

theorem getD_set_same {α : Type} (xs : List α) (i : Nat) (v d : α)
    (h : i < xs.length) : (xs.set i v).getD i d = v := by
  induction xs generalizing i with
  | nil => simp at h
  | cons x xs ih =>
    cases i with
    | zero => rfl
    | succ n => simpa using ih n (by simpa using h)

theorem getD_set_other {α : Type} (xs : List α) (i j : Nat) (v d : α)
    (h : i ≠ j) : (xs.set i v).getD j d = xs.getD j d := by
  induction xs generalizing i j with
  | nil => simp
  | cons x xs ih =>
    cases i with
    | zero =>
      cases j with
      | zero => exact absurd rfl h
      | succ m => simp [List.getD]
    | succ n =>
      cases j with
      | zero => simp [List.getD]
      | succ m =>
        have : n ≠ m := fun hc => h (by simp [hc])
        simpa [List.getD] using ih n m this

theorem range_map_getD {α : Type} (xs : List α) (d : α) (n : Nat)
    (h : xs.length = n) :
    (List.range n).map (fun i => xs.getD i d) = xs := by
  subst h
  induction xs with
  | nil => simp
  | cons x xs ih =>
    rw [List.length_cons, List.range_succ_eq_map, List.map_cons, List.map_map]
    refine congrArg (x :: ·) ?_
    have : ((fun i => List.getD (x :: xs) i d) ∘ Nat.succ)
        = fun i => xs.getD i d := by
      funext i; rfl
    rw [this, ih]

theorem getD_range_map {α : Type} (f : Nat → α) (d : α) (n i : Nat)
    (h : i < n) :
    ((List.range n).map f).getD i d = f i := by
  have h1 : i < ((List.range n).map f).length := by simpa using h
  rw [List.getD_eq_getElem _ _ h1]
  simp

/-! ## Embedded numpy random primitives -/

/-- Inverse-CDF selection for a categorical draw: the first index whose
running total of probabilities exceeds the uniform draw `u`. -/
def cumPick : List ℚ → ℚ → Nat
  | [], _ => 0
  | q :: rest, u => if u < q then 0 else cumPick rest (u - q) + 1

/-- `rng.choice(n, p=p)`: numpy validates that `p` has length `n`, is
non-negative and sums to 1, raising `ValueError` otherwise; on success it
returns an index sampled according to `p` (here via the uniform draw `u`). -/
def rngChoiceP (n : Nat) (p : List ℚ) (u : ℚ) : Except String Nat :=
  if p.length ≠ n then Except.error "ValueError: a and p must have same size"
  else if ¬ p.all (fun q => decide (0 ≤ q)) then
    Except.error "ValueError: probabilities are not non-negative"
  else if p.sum ≠ 1 then
    Except.error "ValueError: probabilities do not sum to 1"
  else Except.ok (cumPick p u)

/-- `rng.choice(pop, k, replace=False)`: numpy raises `ValueError` when the
requested sample is larger than the population; otherwise it returns `k`
distinct elements (here selected by the oracle index list `sel`). -/
def rngChoiceNoReplace {α : Type} (pop : List α) (k : Nat) (sel : List Nat) :
    Except String (List α) :=
  if pop.length < k then
    Except.error "ValueError: cannot take a larger sample than population when replace is False"
  else Except.ok ((sel.take k).filterMap fun i => pop.get? i)

/-! ## Gene -/

/-- The `init_values` argument of `Gene.__init__`: either the sentinel
string `'random'` or a literal scalar that is broadcast across the shape. -/
inductive GeneInit where
  | random
  | literal (v : ℚ)
deriving DecidableEq, Repr

/-- `Gene`: `size` is the 2-D shape tuple, `values` is the row-major
flattening of the value array. -/
structure Gene where
  size : Nat × Nat
  min_val : ℚ
  max_val : ℚ
  init_values : GeneInit
  values : List ℚ
deriving DecidableEq, Repr

/-- Number of positions of a Gene's value array. -/
def Gene.count (g : Gene) : Nat := g.size.1 * g.size.2

/-- `Gene.__init__`: `'random'` fills each position from
`rng.uniform(min_val, max_val, size)` (draws supplied by the oracle
`draws`); a literal fills every position with that value via `np.full`.
No clamping or bound validation is performed. -/
def geneInit (size : Nat × Nat) (min_val max_val : ℚ) (init : GeneInit)
    (draws : Nat → ℚ) : Gene :=
  { size := size, min_val := min_val, max_val := max_val, init_values := init,
    values :=
      match init with
      | GeneInit.random => (List.range (size.1 * size.2)).map draws
      | GeneInit.literal v => List.replicate (size.1 * size.2) v }

/-- `Gene.crossover`: builds a new Gene with this gene's shape and bounds and
sets its values to `np.where(random_mask, self.values, other.values)`; the
mask bit for each position comes from `rng.integers(0, 2, size)`. -/
def Gene.crossover (g other : Gene) (mask : Nat → Bool) : Gene :=
  { size := g.size, min_val := g.min_val, max_val := g.max_val,
    init_values := g.init_values,
    values := (List.range g.count).map fun i =>
      if mask i then g.values.getD i 0 else other.values.getD i 0 }

/-- `Gene.mutate`: `random_mask = rng.uniform(0, 1, size) < mutation_rate`
(the draws are the oracle `u`), and the masked positions are replaced with
`rng.uniform(min_val, max_val, size)` (the oracle `fresh`). -/
def Gene.mutate (g : Gene) (rate : ℚ) (u fresh : Nat → ℚ) : Gene :=
  { g with
    values := (List.range g.count).map fun i =>
      if u i < rate then fresh i else g.values.getD i 0 }

/-- Shape conformance: the flattened value array has exactly one entry per
position of the shape. -/
def Gene.WF (g : Gene) : Prop := g.values.length = g.count

/-- Every stored value lies in the closed interval `[min_val, max_val]`. -/
def Gene.InBounds (g : Gene) : Prop :=
  ∀ v ∈ g.values, g.min_val ≤ v ∧ v ≤ g.max_val

instance (g : Gene) : Decidable g.WF := by unfold Gene.WF; infer_instance

instance (g : Gene) : Decidable g.InBounds := by
  unfold Gene.InBounds; infer_instance

theorem geneInit_WF (size : Nat × Nat) (mn mx : ℚ) (init : GeneInit)
    (draws : Nat → ℚ) : (geneInit size mn mx init draws).WF := by
  cases init <;> simp [geneInit, Gene.WF, Gene.count]

theorem crossover_WF (g other : Gene) (mask : Nat → Bool) :
    (g.crossover other mask).WF := by
  simp [Gene.crossover, Gene.WF, Gene.count]

theorem mutate_WF (g : Gene) (rate : ℚ) (u fresh : Nat → ℚ) :
    (g.mutate rate u fresh).WF := by
  simp [Gene.mutate, Gene.WF, Gene.count]

/-! ## UrnAgent -/

/-- `UrnAgent`: per-observation ball-count vectors, their running sums, and
the pending training buffer of `[obs, choice, reward]` records. -/
structure UrnAgent where
  num_obs : Nat
  num_choices : Nat
  urn_balls : List (List ℚ)
  urn_sum_balls : List ℚ
  train_buf : List (Nat × Nat × ℚ)
deriving DecidableEq, Repr

/-- `UrnAgent.__init__`: each urn starts with one ball per choice, the
innate bias row of the gene is added on top, and the running sum for each
observation is set to the total of its vector. -/
def UrnAgent.init (g : Gene) : UrnAgent :=
  let balls := (List.range g.size.1).map fun obs =>
    (List.range g.size.2).map fun c => 1 + g.values.getD (obs * g.size.2 + c) 0
  { num_obs := g.size.1, num_choices := g.size.2,
    urn_balls := balls,
    urn_sum_balls := balls.map (fun row => row.sum),
    train_buf := [] }

/-- The probability vector `p = urn_balls[obs] / urn_sum_balls[obs]`
computed inside `get_action`. -/
def UrnAgent.probs (a : UrnAgent) (obs : Nat) : List ℚ :=
  (a.urn_balls.getD obs []).map (fun b => b / a.urn_sum_balls.getD obs 0)

/-- Sampling probability of a single `(observation, choice)` pair: its ball
count divided by that observation's running sum. -/
def UrnAgent.prob (a : UrnAgent) (obs c : Nat) : ℚ :=
  (a.urn_balls.getD obs []).getD c 0 / a.urn_sum_balls.getD obs 0

/-- `UrnAgent.get_action`: computes `p` and returns
`rng.choice(np.arange(num_choices), p=p)` (uniform draw `u` supplied by the
oracle).  The method performs no writes, so the agent component of the
result is the agent itself. -/
def UrnAgent.get_action (a : UrnAgent) (obs : Nat) (u : ℚ) :
    Except String Nat × UrnAgent :=
  (rngChoiceP a.num_choices (a.probs obs) u, a)

/-- `UrnAgent.store_buffer`: appends an `[obs, choice, 0]` record to the
tail of the buffer. -/
def UrnAgent.store_buffer (a : UrnAgent) (obs choice : Nat) : UrnAgent :=
  { a with train_buf := a.train_buf ++ [(obs, choice, 0)] }

/-- `UrnAgent.update_reward`: adds `reward` to the reward field of the most
recently appended record; no-op when the buffer is empty. -/
def UrnAgent.update_reward (a : UrnAgent) (reward : ℚ) : UrnAgent :=
  match a.train_buf.getLast? with
  | none => a
  | some r =>
      { a with train_buf := a.train_buf.dropLast ++ [(r.1, r.2.1, r.2.2 + reward)] }

/-- One iteration of the loop in `UrnAgent.train`:
`urn_balls[obs][choice] += reward; urn_sum_balls[obs] += reward`. -/
def trainStep (a : UrnAgent) (rec : Nat × Nat × ℚ) : UrnAgent :=
  { a with
    urn_balls := a.urn_balls.set rec.1
      ((a.urn_balls.getD rec.1 []).set rec.2.1
        ((a.urn_balls.getD rec.1 []).getD rec.2.1 0 + rec.2.2)),
    urn_sum_balls := a.urn_sum_balls.set rec.1
      (a.urn_sum_balls.getD rec.1 0 + rec.2.2) }

/-- `UrnAgent.train`: applies every buffered record in order, then clears
the buffer. -/
def UrnAgent.train (a : UrnAgent) : UrnAgent :=
  { a.train_buf.foldl trainStep a with train_buf := [] }

/-- Structural well-formedness of the learner state: one ball vector and
one running sum per observation, one count per choice. -/
def UrnAgent.WF (a : UrnAgent) : Prop :=
  a.urn_balls.length = a.num_obs ∧ a.urn_sum_balls.length = a.num_obs ∧
  ∀ row ∈ a.urn_balls, row.length = a.num_choices

instance (a : UrnAgent) : Decidable a.WF := by
  unfold UrnAgent.WF; infer_instance

/-- Total reward accumulated in a buffer for one observation. -/
def obsReward (buf : List (Nat × Nat × ℚ)) (o : Nat) : ℚ :=
  ((buf.filter fun r => r.1 == o).map fun r => r.2.2).sum

/-- Total reward accumulated in a buffer for one `(observation, choice)`
pair. -/
def pairReward (buf : List (Nat × Nat × ℚ)) (o c : Nat) : ℚ :=
  ((buf.filter fun r => r.1 == o && r.2.1 == c).map fun r => r.2.2).sum

/-! ## Signaling environment -/

/-- The two roles of the game.  The notebook keys behaviour on the strings
`'sender'` and `'receiver'`; these are the only two values that occur. -/
inductive Role where
  | sender
  | receiver
deriving DecidableEq, Repr

/-- `SignalingGameEnv` state.  `message` and `action` are `Option`s because
the corresponding Python attributes do not exist until first assigned
(reading them earlier raises `AttributeError`); notably `reset` does not
clear `message`. -/
structure SignalingGameEnv where
  num_states : Nat
  num_messages : Nat
  state_dist : List ℚ
  state : Nat
  message : Option Nat
  action : Option Nat
  success : Option Bool
  done : Bool
  agent_selection : Role
deriving DecidableEq, Repr

/-- `SignalingGameEnv.reset`: draws a fresh hidden state via
`rng.choice(num_states, p=state_dist)` (uniform draw `u`), clears `success`
and `done`, hands the turn to the sender.  It does not touch `message`. -/
def SignalingGameEnv.reset (env : SignalingGameEnv) (u : ℚ) :
    Except String SignalingGameEnv :=
  (rngChoiceP env.num_states env.state_dist u).map fun s =>
    { env with state := s, success := none, done := false,
               agent_selection := Role.sender }

/-- `SignalingGameEnv.__init__`: stores the sizes and the distribution and
calls `reset`; before that call neither `message` nor `action` exists. -/
def SignalingGameEnv.mkEnv (num_states num_messages : Nat)
    (state_dist : List ℚ) (u : ℚ) : Except String SignalingGameEnv :=
  SignalingGameEnv.reset
    { num_states := num_states, num_messages := num_messages,
      state_dist := state_dist, state := 0, message := none, action := none,
      success := none, done := false, agent_selection := Role.sender } u

/-- `SignalingGameEnv.observe`: the sender sees the hidden state, the
receiver reads `self.message` (an `AttributeError` when no message has ever
been assigned). -/
def SignalingGameEnv.observe (env : SignalingGameEnv) (r : Role) :
    Except String Nat :=
  match r with
  | Role.sender => Except.ok env.state
  | Role.receiver =>
      match env.message with
      | some m => Except.ok m
      | none => Except.error "AttributeError: no message emitted yet"

/-- `SignalingGameEnv.step`: asserts the game is not done; on the sender's
turn records the message and passes the turn, on the receiver's turn
records the action, computes `success` and finishes the episode. -/
def SignalingGameEnv.step (env : SignalingGameEnv) (a : Nat) :
    Except String SignalingGameEnv :=
  if env.done then
    Except.error "WARNING: The game is done. Call reset()."
  else
    match env.agent_selection with
    | Role.sender =>
        Except.ok { env with message := some a,
                             agent_selection := Role.receiver }
    | Role.receiver =>
        Except.ok { env with action := some a,
                             success := some (env.state == a), done := true }

/-! ## Creature and the configuration cell -/

/-- `Creature`: one Gene and one `UrnAgent` per role, a fitness accumulator
and a lifespan drawn from `rng.geometric(1 / lifespan_mean)` (the drawn
value is the oracle argument `lifespan`). -/
structure Creature where
  sender_gene : Gene
  receiver_gene : Gene
  sender_agent : UrnAgent
  receiver_agent : UrnAgent
  fitness : ℚ
  lifespan : Nat
deriving DecidableEq, Repr

/-- `Creature.__init__`: builds one learner per role from the matching
gene, starts fitness at 0 and stores the sampled lifespan. -/
def Creature.init (sg rg : Gene) (lifespan : Nat) : Creature :=
  { sender_gene := sg, receiver_gene := rg,
    sender_agent := UrnAgent.init sg, receiver_agent := UrnAgent.init rg,
    fitness := 0, lifespan := lifespan }

/-- The tunable parameters of the notebook's configuration cell. -/
structure Config where
  num_states : Nat
  num_messages : Nat
  state_dist : List ℚ
  pop_size : Nat
  min_bias : ℚ
  max_bias : ℚ
  init_bias : GeneInit
  tornament_size : Nat
  do_crossover : Bool
  mutation_rate : ℚ
  lifespan_mean : ℚ
deriving Repr

/-- The configuration cell: everything executed before the evolution loop
that can raise.  It constructs the environment (whose `reset` validates
`state_dist` through `rng.choice`) and the initial population of fresh
creatures.  No other parameter is validated: in particular neither the
Gene bounds nor `tornament_size` are checked here. -/
def configSetup (cfg : Config) (stateDraw : ℚ) (geneDraws : Nat → Nat → ℚ)
    (lifespans : Nat → Nat) : Except String (SignalingGameEnv × List Creature) := do
  let env ← SignalingGameEnv.mkEnv cfg.num_states cfg.num_messages
    cfg.state_dist stateDraw
  let pop := (List.range cfg.pop_size).map fun i =>
    Creature.init
      (geneInit (cfg.num_states, cfg.num_messages) cfg.min_bias cfg.max_bias
        cfg.init_bias (geneDraws (2 * i)))
      (geneInit (cfg.num_messages, cfg.num_states) cfg.min_bias cfg.max_bias
        cfg.init_bias (geneDraws (2 * i + 1)))
      (lifespans i)
  Except.ok (env, pop)

/-! ## Gene identity during generational replacement

To reason about sharing of `Gene` objects between creatures, the
replacement loop is replayed at the level of object identities: each
`Gene` object is a numeric id, `crossover` allocates fresh ids (it builds a
brand-new Gene), while the no-crossover branch reuses the winner's ids
(`new_genes = winner.bias_genes`, no copy) and in-place `mutate` keeps the
id of the object it mutates. -/

structure CreatureR where
  sgene : Nat
  rgene : Nat
  fitness : ℚ
  lifespan : Nat
deriving DecidableEq, Repr

/-- Placeholder creature used as the `getD` default. -/
def cr0 : CreatureR := { sgene := 0, rgene := 0, fitness := 0, lifespan := 0 }

/-- The body of `for i in range(pop_size)` in the replacement loop, at the
gene-identity level, processing the slot indices `idxs` with `nid` as the
next unused Gene id.  A slot whose creature still has lifespan above 1 is
carried over with its ids; otherwise a new creature is bred — with
crossover its two Genes are freshly allocated objects, without crossover
they are exactly the tournament winner's objects (`winner i` is the oracle
giving the index of the selected parent for slot `i`). -/
def buildNextGenAux (pop : List CreatureR) (do_cross : Bool)
    (winner lifespans : Nat → Nat) :
    List Nat → Nat → List CreatureR × Nat
  | [], nid => ([], nid)
  | i :: rest, nid =>
    let c := pop.getD i cr0
    if c.lifespan > 1 then
      let r := buildNextGenAux pop do_cross winner lifespans rest nid
      ({ c with lifespan := c.lifespan - 1 } :: r.1, r.2)
    else if do_cross then
      let r := buildNextGenAux pop do_cross winner lifespans rest (nid + 2)
      ({ sgene := nid, rgene := nid + 1, fitness := 0,
         lifespan := lifespans i } :: r.1, r.2)
    else
      let w := pop.getD (winner i) cr0
      let r := buildNextGenAux pop do_cross winner lifespans rest nid
      ({ sgene := w.sgene, rgene := w.rgene, fitness := 0,
         lifespan := lifespans i } :: r.1, r.2)

/-- The whole generational-replacement step at the gene-identity level:
one pass over every population slot. -/
def buildNextGen (pop : List CreatureR) (do_cross : Bool)
    (winner lifespans : Nat → Nat) (nextId : Nat) : List CreatureR × Nat :=
  buildNextGenAux pop do_cross winner lifespans (List.range pop.length) nextId

/-- Two creatures own no common Gene object. -/
def DisjointGenes (c d : CreatureR) : Prop :=
  c.sgene ≠ d.sgene ∧ c.sgene ≠ d.rgene ∧ c.rgene ≠ d.sgene ∧ c.rgene ≠ d.rgene

instance (c d : CreatureR) : Decidable (DisjointGenes c d) := by
  unfold DisjointGenes; infer_instance

/-! ## Further list helpers used by the theorems -/

theorem getD_mem {α : Type} (xs : List α) (i : Nat) (d : α)
    (h : i < xs.length) : xs.getD i d ∈ xs := by
  rw [List.getD_eq_getElem xs d h]
  exact List.getElem_mem h

/-! ## C1 -/

/-- C1 counterexample: constructing a Gene with bounds `[0, 30]` and the
literal broadcast value `50` yields an array whose entries all equal `50`,
outside `[min_val, max_val]` — the constructor performs no clamping, so the
claimed invariant fails for literal init values outside the bounds. -/
theorem C1_counterexample :
    ¬ (geneInit (1, 1) 0 30 (GeneInit.literal 50) (fun _ => 0)).InBounds := by
  decide

/-- C1 (amended): every entry of a Gene's values array lies in
`[min_val, max_val]` after random construction (given the range contract of
`rng.uniform`), after literal construction provided the literal itself lies
in `[min_val, max_val]`, after crossover of two in-bounds genes of equal
shape and bounds, and after `mutate` with any rate in `[0, 1]` starting
from an in-bounds gene. -/
theorem C1_gene_values_in_bounds :
    (∀ (size : Nat × Nat) (mn mx : ℚ) (draws : Nat → ℚ),
       (∀ i, mn ≤ draws i ∧ draws i ≤ mx) →
       (geneInit size mn mx GeneInit.random draws).InBounds) ∧
    (∀ (size : Nat × Nat) (mn mx v : ℚ) (draws : Nat → ℚ),
       mn ≤ v → v ≤ mx →
       (geneInit size mn mx (GeneInit.literal v) draws).InBounds) ∧
    (∀ (g other : Gene) (mask : Nat → Bool),
       g.WF → other.WF → g.size = other.size →
       g.min_val = other.min_val → g.max_val = other.max_val →
       g.InBounds → other.InBounds →
       (g.crossover other mask).InBounds) ∧
    (∀ (g : Gene) (rate : ℚ) (u fresh : Nat → ℚ),
       0 ≤ rate → rate ≤ 1 → g.WF →
       (∀ i, g.min_val ≤ fresh i ∧ fresh i ≤ g.max_val) →
       g.InBounds →
       (g.mutate rate u fresh).InBounds) := by
  refine ⟨?_, ?_, ?_, ?_⟩
  · intro size mn mx draws h v hv
    simp only [geneInit, Gene.InBounds, List.mem_map, List.mem_range] at hv ⊢
    obtain ⟨i, -, rfl⟩ := hv
    exact h i
  · intro size mn mx v draws h1 h2 w hw
    simp only [geneInit, Gene.InBounds, List.mem_replicate] at hw ⊢
    rcases hw with ⟨-, rfl⟩
    exact ⟨h1, h2⟩
  · intro g other mask hg ho hsz hmn hmx hbg hbo v hv
    simp only [Gene.crossover, Gene.InBounds, List.mem_map, List.mem_range] at hv ⊢
    obtain ⟨i, hi, rfl⟩ := hv
    by_cases hm : mask i
    · rw [if_pos hm]
      exact hbg _ (getD_mem g.values i 0 (by rw [hg]; exact hi))
    · rw [if_neg hm]
      have hio : i < other.values.length := by
        rw [ho]
        simpa [Gene.count, hsz] using hi
      have := hbo _ (getD_mem other.values i 0 hio)
      exact ⟨hmn ▸ this.1, hmx ▸ this.2⟩
  · intro g rate u fresh h0 h1 hwf hfresh hbg v hv
    simp only [Gene.mutate, Gene.InBounds, List.mem_map, List.mem_range] at hv ⊢
    obtain ⟨i, hi, rfl⟩ := hv
    by_cases hm : u i < rate
    · rw [if_pos hm]; exact hfresh i
    · rw [if_neg hm]
      exact hbg _ (getD_mem g.values i 0 (by rw [hwf]; exact hi))

/-- C1 witness: the amended theorem evaluated at a concrete in-range
literal construction. -/
theorem C1_witness :
    (geneInit (2, 2) 0 30 (GeneInit.literal 5) (fun _ => 0)).InBounds :=
  C1_gene_values_in_bounds.2.1 (2, 2) 0 30 5 (fun _ => 0) (by norm_num)
    (by norm_num)

/-! ## C8 -/

/-- C8: for two Genes of equal shape and bounds, `crossover` builds a fresh
Gene with this gene's shape and bounds whose value at every position equals
exactly one of the two parents' values at that position (never an
interpolation); being a pure constructor call plus `np.where`, it writes to
neither parent. -/
theorem C8_crossover_positionwise (g other : Gene) (mask : Nat → Bool)
    (_hsz : g.size = other.size)
    (_hmn : g.min_val = other.min_val) (_hmx : g.max_val = other.max_val) :
    (g.crossover other mask).size = g.size ∧
    (g.crossover other mask).WF ∧
    ∀ i, i < g.count →
      (g.crossover other mask).values.getD i 0 = g.values.getD i 0 ∨
      (g.crossover other mask).values.getD i 0 = other.values.getD i 0 := by
  refine ⟨rfl, crossover_WF g other mask, ?_⟩
  intro i hi
  have hcount : (g.crossover other mask).values.getD i 0
      = if mask i then g.values.getD i 0 else other.values.getD i 0 := by
    simp only [Gene.crossover]
    exact getD_range_map _ 0 g.count i hi
  by_cases hm : mask i
  · left; rw [hcount, if_pos hm]
  · right; rw [hcount, if_neg hm]

/-- C8 witness: crossover of two concrete genes, extracting one parent's
value at position 0. -/
theorem C8_witness :
    ((geneInit (1, 2) 0 30 (GeneInit.literal 3) (fun _ => 0)).crossover
        (geneInit (1, 2) 0 30 (GeneInit.literal 9) (fun _ => 0))
        (fun _ => true)).values.getD 0 0
      = (geneInit (1, 2) 0 30 (GeneInit.literal 3) (fun _ => 0)).values.getD 0 0 ∨
    ((geneInit (1, 2) 0 30 (GeneInit.literal 3) (fun _ => 0)).crossover
        (geneInit (1, 2) 0 30 (GeneInit.literal 9) (fun _ => 0))
        (fun _ => true)).values.getD 0 0
      = (geneInit (1, 2) 0 30 (GeneInit.literal 9) (fun _ => 0)).values.getD 0 0 :=
  (C8_crossover_positionwise
    (geneInit (1, 2) 0 30 (GeneInit.literal 3) (fun _ => 0))
    (geneInit (1, 2) 0 30 (GeneInit.literal 9) (fun _ => 0))
    (fun _ => true) rfl rfl rfl).2.2 0 (by decide)

/-! ## C9 -/

/-- C9: given the range contracts of the two `rng.uniform` calls inside
`mutate` (mask draws in `[0, 1)`, replacement draws in
`[min_val, max_val]`), `mutate 0` leaves the values array unchanged and
`mutate 1` replaces every position with its fresh draw, keeping every value
within bounds — whatever the individual draws are. -/
theorem C9_mutate_zero_one (g : Gene) (u fresh : Nat → ℚ)
    (hwf : g.WF)
    (hu : ∀ i, 0 ≤ u i ∧ u i < 1)
    (hfresh : ∀ i, g.min_val ≤ fresh i ∧ fresh i ≤ g.max_val) :
    (g.mutate 0 u fresh).values = g.values ∧
    (g.mutate 1 u fresh).values = (List.range g.count).map fresh ∧
    (g.mutate 1 u fresh).InBounds := by
  refine ⟨?_, ?_, ?_⟩
  · show (List.range g.count).map
        (fun i => if u i < 0 then fresh i else g.values.getD i 0) = g.values
    calc (List.range g.count).map
          (fun i => if u i < 0 then fresh i else g.values.getD i 0)
        = (List.range g.count).map (fun i => g.values.getD i 0) := by
          refine List.map_congr_left fun i _ => ?_
          rw [if_neg (not_lt.2 (hu i).1)]
      _ = g.values := range_map_getD g.values 0 g.count hwf
  · show (List.range g.count).map
        (fun i => if u i < 1 then fresh i else g.values.getD i 0)
      = (List.range g.count).map fresh
    refine List.map_congr_left fun i _ => ?_
    rw [if_pos (hu i).2]
  · intro v hv
    simp only [Gene.mutate, List.mem_map, List.mem_range] at hv
    obtain ⟨i, -, rfl⟩ := hv
    by_cases hm : u i < 1
    · rw [if_pos hm]; exact hfresh i
    · rw [if_neg hm]
      exact absurd (hu i).2 hm

/-- C9 witness: the theorem at a concrete gene with constant draws. -/
theorem C9_witness :
    ((geneInit (1, 2) 0 30 (GeneInit.literal 3) (fun _ => 0)).mutate 0
        (fun _ => 1/2) (fun _ => 7)).values
      = (geneInit (1, 2) 0 30 (GeneInit.literal 3) (fun _ => 0)).values ∧
    ((geneInit (1, 2) 0 30 (GeneInit.literal 3) (fun _ => 0)).mutate 1
        (fun _ => 1/2) (fun _ => 7)).values
      = (List.range (geneInit (1, 2) 0 30 (GeneInit.literal 3)
          (fun _ => 0)).count).map (fun _ => 7) ∧
    ((geneInit (1, 2) 0 30 (GeneInit.literal 3) (fun _ => 0)).mutate 1
        (fun _ => 1/2) (fun _ => 7)).InBounds :=
  C9_mutate_zero_one _ (fun _ => 1/2) (fun _ => 7) (by decide)
    (fun _ => by norm_num)
    (fun _ => show (0 : ℚ) ≤ 7 ∧ (7 : ℚ) ≤ 30 by norm_num)

/-! ## Training-loop lemmas for C4 and C5 -/

theorem trainStep_buf (a : UrnAgent) (r : Nat × Nat × ℚ) :
    (trainStep a r).train_buf = a.train_buf := rfl

theorem trainStep_sums_length (a : UrnAgent) (r : Nat × Nat × ℚ) :
    (trainStep a r).urn_sum_balls.length = a.urn_sum_balls.length := by
  simp [trainStep]

theorem trainStep_balls_length (a : UrnAgent) (r : Nat × Nat × ℚ) :
    (trainStep a r).urn_balls.length = a.urn_balls.length := by
  simp [trainStep]

theorem trainStep_row_length (a : UrnAgent) (r : Nat × Nat × ℚ) (i : Nat)
    (hr : r.1 < a.urn_balls.length) :
    ((trainStep a r).urn_balls.getD i []).length
      = (a.urn_balls.getD i []).length := by
  by_cases hi : r.1 = i
  · subst hi
    simp only [trainStep]
    rw [getD_set_same _ _ _ _ hr]
    exact List.length_set ..
  · simp only [trainStep]
    rw [getD_set_other _ _ _ _ _ hi]

theorem obsReward_nil (o : Nat) : obsReward [] o = 0 := rfl

theorem obsReward_cons (r : Nat × Nat × ℚ) (l : List (Nat × Nat × ℚ))
    (o : Nat) :
    obsReward (r :: l) o = (if r.1 = o then r.2.2 else 0) + obsReward l o := by
  by_cases h : r.1 = o <;> simp [obsReward, List.filter_cons, h]

theorem pairReward_nil (o c : Nat) : pairReward [] o c = 0 := rfl

theorem pairReward_cons (r : Nat × Nat × ℚ) (l : List (Nat × Nat × ℚ))
    (o c : Nat) :
    pairReward (r :: l) o c
      = (if r.1 = o ∧ r.2.1 = c then r.2.2 else 0) + pairReward l o c := by
  by_cases h1 : r.1 = o
  · by_cases h2 : r.2.1 = c <;>
      simp [pairReward, List.filter_cons, h1, h2]
  · simp [pairReward, List.filter_cons, h1]

theorem foldl_trainStep_buf (l : List (Nat × Nat × ℚ)) (a : UrnAgent) :
    (l.foldl trainStep a).train_buf = a.train_buf := by
  induction l generalizing a with
  | nil => rfl
  | cons r l ih =>
    rw [List.foldl_cons]
    exact (ih (trainStep a r)).trans (trainStep_buf a r)

theorem foldl_trainStep_sums (l : List (Nat × Nat × ℚ)) (a : UrnAgent)
    (o : Nat) (hb : ∀ r ∈ l, r.1 < a.urn_sum_balls.length) :
    (l.foldl trainStep a).urn_sum_balls.getD o 0 =
      a.urn_sum_balls.getD o 0 + obsReward l o := by
  induction l generalizing a with
  | nil => simp [obsReward_nil]
  | cons r l ih =>
    have hr : r.1 < a.urn_sum_balls.length := hb r (List.mem_cons_self ..)
    have hb' : ∀ s ∈ l, s.1 < (trainStep a r).urn_sum_balls.length := by
      intro s hs
      rw [trainStep_sums_length]
      exact hb s (List.mem_cons_of_mem _ hs)
    rw [List.foldl_cons, ih _ hb', obsReward_cons]
    by_cases ho : r.1 = o
    · subst ho
      have hstep : (trainStep a r).urn_sum_balls.getD r.1 0
          = a.urn_sum_balls.getD r.1 0 + r.2.2 := by
        simp only [trainStep]
        exact getD_set_same _ _ _ _ hr
      rw [hstep, if_pos rfl]; ring
    · have hstep : (trainStep a r).urn_sum_balls.getD o 0
          = a.urn_sum_balls.getD o 0 := by
        simp only [trainStep]
        exact getD_set_other _ _ _ _ _ ho
      rw [hstep, if_neg ho]; ring

theorem foldl_trainStep_balls (l : List (Nat × Nat × ℚ)) (a : UrnAgent)
    (o c : Nat)
    (hb : ∀ r ∈ l, r.1 < a.urn_balls.length ∧
      r.2.1 < (a.urn_balls.getD r.1 []).length) :
    ((l.foldl trainStep a).urn_balls.getD o []).getD c 0 =
      (a.urn_balls.getD o []).getD c 0 + pairReward l o c := by
  induction l generalizing a with
  | nil => simp [pairReward_nil]
  | cons r l ih =>
    have hr : r.1 < a.urn_balls.length := (hb r (List.mem_cons_self ..)).1
    have hrc : r.2.1 < (a.urn_balls.getD r.1 []).length :=
      (hb r (List.mem_cons_self ..)).2
    have hb' : ∀ s ∈ l, s.1 < (trainStep a r).urn_balls.length ∧
        s.2.1 < ((trainStep a r).urn_balls.getD s.1 []).length := by
      intro s hs
      have h0 := hb s (List.mem_cons_of_mem _ hs)
      exact ⟨by rw [trainStep_balls_length]; exact h0.1,
        by rw [trainStep_row_length a r s.1 hr]; exact h0.2⟩
    rw [List.foldl_cons, ih _ hb', pairReward_cons]
    by_cases ho : r.1 = o
    · subst ho
      have hrow : (trainStep a r).urn_balls.getD r.1 []
          = (a.urn_balls.getD r.1 []).set r.2.1
              ((a.urn_balls.getD r.1 []).getD r.2.1 0 + r.2.2) := by
        simp only [trainStep]
        exact getD_set_same _ _ _ _ hr
      by_cases hc : r.2.1 = c
      · subst hc
        rw [hrow, getD_set_same _ _ _ _ hrc, if_pos ⟨rfl, rfl⟩]; ring
      · rw [hrow, getD_set_other _ _ _ _ _ hc,
          if_neg (fun hcon => hc hcon.2)]
        ring
    · have hrow : (trainStep a r).urn_balls.getD o []
          = a.urn_balls.getD o [] := by
        simp only [trainStep]
        exact getD_set_other _ _ _ _ _ ho
      rw [hrow, if_neg (fun hcon => ho hcon.1)]; ring

/-! ## C4 -/

/-- C4: after `train()`, the tracked per-observation ball-count sum equals
the sum before plus the total reward of all buffered records for that
observation, each `(obs, choice)` ball count grows by exactly the reward
accumulated for that pair across the buffer, and the buffer is empty. -/
theorem C4_train_spec (a : UrnAgent) (hwf : a.WF)
    (hbuf : ∀ r ∈ a.train_buf, r.1 < a.num_obs ∧ r.2.1 < a.num_choices) :
    a.train.train_buf = [] ∧
    (∀ o, a.train.urn_sum_balls.getD o 0 =
       a.urn_sum_balls.getD o 0 + obsReward a.train_buf o) ∧
    (∀ o c, (a.train.urn_balls.getD o []).getD c 0 =
       (a.urn_balls.getD o []).getD c 0 + pairReward a.train_buf o c) := by
  obtain ⟨hlb, hls, hrows⟩ := hwf
  refine ⟨rfl, ?_, ?_⟩
  · intro o
    exact foldl_trainStep_sums a.train_buf a o fun r hr => by
      rw [hls]; exact (hbuf r hr).1
  · intro o c
    refine foldl_trainStep_balls a.train_buf a o c fun r hr => ?_
    have h1 : r.1 < a.urn_balls.length := by
      rw [hlb]; exact (hbuf r hr).1
    refine ⟨h1, ?_⟩
    rw [hrows _ (getD_mem a.urn_balls r.1 [] h1)]
    exact (hbuf r hr).2

/-- Concrete learner used to instantiate C4. -/
def agW : UrnAgent :=
  { num_obs := 2, num_choices := 2, urn_balls := [[1, 2], [3, 4]],
    urn_sum_balls := [3, 7], train_buf := [(0, 1, 5), (1, 0, 2), (0, 1, 1)] }

/-- C4 witness: the theorem at a concrete learner and buffer. -/
theorem C4_witness :
    agW.train.train_buf = [] ∧
    agW.train.urn_sum_balls.getD 0 0
      = agW.urn_sum_balls.getD 0 0 + obsReward agW.train_buf 0 ∧
    (agW.train.urn_balls.getD 0 []).getD 1 0
      = (agW.urn_balls.getD 0 []).getD 1 0 + pairReward agW.train_buf 0 1 :=
  ⟨(C4_train_spec agW (by decide) (by decide)).1,
   (C4_train_spec agW (by decide) (by decide)).2.1 0,
   (C4_train_spec agW (by decide) (by decide)).2.2 0 1⟩

/-! ## C5 -/

/-- C5: for a learner with positive ball counts whose tracked sum matches
its vector, a `train()` step on a buffer holding exactly one record
`(o, c, r)` with `r > 0` does not decrease the sampling probability of
choice `c` under observation `o`. -/
theorem C5_positive_reward_prob (a : UrnAgent) (o c : Nat) (r : ℚ)
    (hbuf : a.train_buf = [(o, c, r)])
    (hr : 0 < r)
    (hwf : a.WF)
    (hoc : o < a.num_obs) (hcc : c < a.num_choices)
    (hpos : ∀ row ∈ a.urn_balls, ∀ x ∈ row, 0 < x)
    (hsum : a.urn_sum_balls.getD o 0 = (a.urn_balls.getD o []).sum) :
    a.prob o c ≤ a.train.prob o c := by
  obtain ⟨hlb, hls, hrows⟩ := hwf
  have hob : o < a.urn_balls.length := by rw [hlb]; exact hoc
  have hos : o < a.urn_sum_balls.length := by rw [hls]; exact hoc
  set row := a.urn_balls.getD o [] with hrow
  have hcd : c < row.length := by
    rw [hrows _ (getD_mem a.urn_balls o [] hob)]; exact hcc
  set b := row.getD c 0 with hbdef
  set s := a.urn_sum_balls.getD o 0 with hsdef
  have hbpos : 0 < b :=
    hpos row (getD_mem a.urn_balls o [] hob) b (getD_mem row c 0 hcd)
  have hbs : b ≤ s := by
    rw [hsum]
    exact List.single_le_sum
      (fun x hx => le_of_lt (hpos row (getD_mem a.urn_balls o [] hob) x hx))
      b (getD_mem row c 0 hcd)
  have hspos : 0 < s := lt_of_lt_of_le hbpos hbs
  have htrain_balls : (a.train.urn_balls.getD o []).getD c 0 = b + r := by
    show (((a.train_buf.foldl trainStep a).urn_balls).getD o []).getD c 0 = b + r
    rw [hbuf, List.foldl_cons, List.foldl_nil]
    simp only [trainStep]
    rw [getD_set_same _ _ _ _ hob, getD_set_same _ _ _ _ hcd]
  have htrain_sums : a.train.urn_sum_balls.getD o 0 = s + r := by
    show ((a.train_buf.foldl trainStep a).urn_sum_balls).getD o 0 = s + r
    rw [hbuf, List.foldl_cons, List.foldl_nil]
    simp only [trainStep]
    exact getD_set_same _ _ _ _ hos
  show b / s ≤ (a.train.urn_balls.getD o []).getD c 0
      / a.train.urn_sum_balls.getD o 0
  rw [htrain_balls, htrain_sums]
  rw [div_le_div_iff₀ hspos (by linarith)]
  nlinarith

/-- Concrete learner used to instantiate C5. -/
def agV : UrnAgent :=
  { num_obs := 1, num_choices := 2, urn_balls := [[1, 1]],
    urn_sum_balls := [2], train_buf := [(0, 0, 1)] }

/-- C5 witness: probability of the rewarded pair rises from 1/2 to 2/3. -/
theorem C5_witness : agV.prob 0 0 ≤ agV.train.prob 0 0 :=
  C5_positive_reward_prob agV 0 0 1 rfl (by norm_num) (by decide)
    (by decide) (by decide) (by decide) (by norm_num [agV])

/-! ## C6 -/

/-- C6: `step` fails when the episode is done; on the sender's turn it
records the action as the message and hands the turn to the receiver,
leaving `done` false and every other field untouched; on the receiver's
turn it records the action, sets `success` exactly when the action equals
the hidden state, and sets `done`, leaving every other field untouched. -/
theorem C6_step_spec (env : SignalingGameEnv) (a : Nat) :
    (env.done = true →
      env.step a = Except.error "WARNING: The game is done. Call reset().") ∧
    (env.done = false → env.agent_selection = Role.sender →
      env.step a = Except.ok { env with message := some a,
                                        agent_selection := Role.receiver }) ∧
    (env.done = false → env.agent_selection = Role.receiver →
      env.step a = Except.ok { env with action := some a,
                                        success := some (env.state == a),
                                        done := true }) := by
  refine ⟨?_, ?_, ?_⟩
  · intro hd; simp [SignalingGameEnv.step, hd]
  · intro hd hs; simp [SignalingGameEnv.step, hd, hs]
  · intro hd hs; simp [SignalingGameEnv.step, hd, hs]

/-- Concrete environments used to instantiate C6: one finished episode,
one at the sender's turn, one at the receiver's turn. -/
def envD : SignalingGameEnv :=
  { num_states := 2, num_messages := 2, state_dist := [1/2, 1/2], state := 1,
    message := some 1, action := some 0, success := some false, done := true,
    agent_selection := Role.receiver }

def envS : SignalingGameEnv :=
  { num_states := 2, num_messages := 2, state_dist := [1/2, 1/2], state := 1,
    message := none, action := none, success := none, done := false,
    agent_selection := Role.sender }

def envR : SignalingGameEnv :=
  { num_states := 2, num_messages := 2, state_dist := [1/2, 1/2], state := 1,
    message := some 1, action := none, success := none, done := false,
    agent_selection := Role.receiver }

/-- C6 witness: the three branches at concrete environments. -/
theorem C6_witness :
    envD.step 0 = Except.error "WARNING: The game is done. Call reset()." ∧
    envS.step 1 = Except.ok { envS with message := some 1,
                                        agent_selection := Role.receiver } ∧
    envR.step 1 = Except.ok { envR with action := some 1,
                                        success := some (envR.state == 1),
                                        done := true } :=
  ⟨(C6_step_spec envD 0).1 rfl,
   (C6_step_spec envS 1).2.1 rfl rfl,
   (C6_step_spec envR 1).2.2 rfl rfl⟩

/-! ## C7 -/

/-- The episode trace refuting C7: build the environment, run one full
episode (sender sends message 1, receiver acts), then `reset`. -/
def c7trace : Except String SignalingGameEnv := do
  let e0 ← SignalingGameEnv.mkEnv 2 2 [1/2, 1/2] (3/4)
  let e1 ← e0.step 1
  let e2 ← e1.step 0
  e2.reset 0

/-- C7 counterexample: `reset` does not clear `self.message`, so
immediately after a reset that follows a completed episode, observing the
receiver returns the previous episode's message (here `1`) instead of
raising an error — refuting the claim that receiver observation errors
right after any reset. -/
theorem C7_counterexample :
    c7trace.map (fun e => e.observe Role.receiver)
      = Except.ok (Except.ok 1) := by
  norm_num [c7trace, SignalingGameEnv.mkEnv, SignalingGameEnv.reset,
    rngChoiceP, cumPick, SignalingGameEnv.step, SignalingGameEnv.observe,
    Except.map, List.sum_cons, bind, Except.bind]

/-- C7 (amended): `observe('sender')` always returns the current hidden
state; `observe('receiver')` returns the stored message whenever one has
ever been emitted and is an error exactly when no message was ever
assigned; a fresh environment has no message (so the receiver errors
before the sender's first step since construction), but `reset` preserves
whatever message is stored, so after later resets the receiver reads the
most recently emitted message even when it came from a previous episode. -/
theorem C7_observe_spec (env : SignalingGameEnv) (u : ℚ) (m : Nat)
    (ns nm : Nat) (dist : List ℚ) :
    (env.observe Role.sender = Except.ok env.state) ∧
    (env.message = some m → env.observe Role.receiver = Except.ok m) ∧
    (env.message = none →
      env.observe Role.receiver
        = Except.error "AttributeError: no message emitted yet") ∧
    (∀ e', env.reset u = Except.ok e' → e'.message = env.message) ∧
    (∀ e0, SignalingGameEnv.mkEnv ns nm dist u = Except.ok e0 →
      e0.message = none) := by
  refine ⟨rfl, ?_, ?_, ?_, ?_⟩
  · intro hm; simp [SignalingGameEnv.observe, hm]
  · intro hm; simp [SignalingGameEnv.observe, hm]
  · intro e' he'
    simp only [SignalingGameEnv.reset, Except.map] at he'
    cases hc : rngChoiceP env.num_states env.state_dist u with
    | error msg => rw [hc] at he'; cases he'
    | ok s =>
        rw [hc] at he'
        cases he'
        rfl
  · intro e0 he0
    simp only [SignalingGameEnv.mkEnv, SignalingGameEnv.reset,
      Except.map] at he0
    cases hc : rngChoiceP ns dist u with
    | error msg => rw [hc] at he0; cases he0
    | ok s =>
        rw [hc] at he0
        cases he0
        rfl

/-- C7 witness: the amended theorem at the concrete environment reached by
`c7trace` (message `1` stored) and at a fresh construction. -/
theorem C7_witness :
    envR.observe Role.sender = Except.ok envR.state ∧
    envR.observe Role.receiver = Except.ok 1 ∧
    envS.observe Role.receiver
      = Except.error "AttributeError: no message emitted yet" :=
  ⟨(C7_observe_spec envR 0 1 2 2 [1/2, 1/2]).1,
   (C7_observe_spec envR 0 1 2 2 [1/2, 1/2]).2.1 rfl,
   (C7_observe_spec envS 0 1 2 2 [1/2, 1/2]).2.2.1 rfl⟩

/-! ## C10 -/

/-- Concrete learner with one pending record, used against C10. -/
def agY : UrnAgent :=
  { num_obs := 1, num_choices := 2, urn_balls := [[1, 1]],
    urn_sum_balls := [2], train_buf := [(0, 0, 0)] }

/-- C10 counterexample: the claim says only `store_buffer` and `train`
modify learner state, but `update_reward` with a non-empty buffer rewrites
the reward field of the last pending record, changing the state. -/
theorem C10_counterexample : agY.update_reward 1 ≠ agY := by
  intro h
  have hbuf : (agY.update_reward 1).train_buf = agY.train_buf :=
    congrArg UrnAgent.train_buf h
  norm_num [agY, UrnAgent.update_reward] at hbuf

/-- C10 (amended): `get_action` performs no writes at all — the learner
after the call is the one before it, in particular its ball counts, its
running sums and its pending buffer; the state-changing operations are
`store_buffer`, `update_reward` and `train`. -/
theorem C10_get_action_frame (a : UrnAgent) (obs : Nat) (u : ℚ) :
    (a.get_action obs u).2 = a ∧
    (a.get_action obs u).2.urn_balls = a.urn_balls ∧
    (a.get_action obs u).2.urn_sum_balls = a.urn_sum_balls ∧
    (a.get_action obs u).2.train_buf = a.train_buf :=
  ⟨rfl, rfl, rfl, rfl⟩

/-! ## C2 -/

/-- Transfer of gene-disjointness along gene-field equalities. -/
theorem disjoint_of_fields {c1 c2 d1 d2 : CreatureR}
    (hs1 : c1.sgene = d1.sgene) (hr1 : c1.rgene = d1.rgene)
    (hs2 : c2.sgene = d2.sgene) (hr2 : c2.rgene = d2.rgene)
    (h : DisjointGenes d1 d2) : DisjointGenes c1 c2 := by
  unfold DisjointGenes at h ⊢
  rw [hs1, hr1, hs2, hr2]
  exact h

theorem buildNextGenAux_carry (pop : List CreatureR) (dc : Bool)
    (w ls : Nat → Nat) (i : Nat) (rest : List Nat) (nid : Nat)
    (h : (pop.getD i cr0).lifespan > 1) :
    buildNextGenAux pop dc w ls (i :: rest) nid
      = ({ sgene := (pop.getD i cr0).sgene, rgene := (pop.getD i cr0).rgene,
           fitness := (pop.getD i cr0).fitness,
           lifespan := (pop.getD i cr0).lifespan - 1 }
          :: (buildNextGenAux pop dc w ls rest nid).1,
         (buildNextGenAux pop dc w ls rest nid).2) := by
  simp only [buildNextGenAux]
  rw [if_pos h]

theorem buildNextGenAux_cross (pop : List CreatureR)
    (w ls : Nat → Nat) (i : Nat) (rest : List Nat) (nid : Nat)
    (h : ¬ (pop.getD i cr0).lifespan > 1) :
    buildNextGenAux pop true w ls (i :: rest) nid
      = ({ sgene := nid, rgene := nid + 1, fitness := 0, lifespan := ls i }
          :: (buildNextGenAux pop true w ls rest (nid + 2)).1,
         (buildNextGenAux pop true w ls rest (nid + 2)).2) := by
  simp only [buildNextGenAux]
  rw [if_neg h]
  exact if_pos trivial

/-- Core invariant of the replacement pass when crossover is enabled:
processing any duplicate-free list of slot indices with all existing gene
ids below `N ≤ nid` yields creatures with pairwise disjoint genes, each of
which either carries over some slot's gene ids unchanged or owns freshly
allocated ids at or above `nid`. -/
theorem buildNextGenAux_fresh (pop : List CreatureR)
    (winner lifespans : Nat → Nat) (N : Nat)
    (hN : ∀ c ∈ pop, c.sgene < N ∧ c.rgene < N)
    (hdisj : ∀ i, i < pop.length → ∀ j, j < pop.length → i ≠ j →
      DisjointGenes (pop.getD i cr0) (pop.getD j cr0)) :
    ∀ (idxs : List Nat) (nid : Nat), idxs.Nodup →
      (∀ i ∈ idxs, i < pop.length) → N ≤ nid →
      List.Pairwise DisjointGenes
        (buildNextGenAux pop true winner lifespans idxs nid).1 ∧
      (∀ c ∈ (buildNextGenAux pop true winner lifespans idxs nid).1,
        (∃ i ∈ idxs, c.sgene = (pop.getD i cr0).sgene ∧
          c.rgene = (pop.getD i cr0).rgene) ∨
        (nid ≤ c.sgene ∧ nid ≤ c.rgene)) := by
  intro idxs
  induction idxs with
  | nil =>
    intro nid _ _ _
    exact ⟨List.Pairwise.nil, by simp [buildNextGenAux]⟩
  | cons i rest ih =>
    intro nid hnodup hlt hn
    have hirest : i ∉ rest := (List.nodup_cons.1 hnodup).1
    have hrest : rest.Nodup := (List.nodup_cons.1 hnodup).2
    have hltr : ∀ j ∈ rest, j < pop.length := fun j hj =>
      hlt j (List.mem_cons_of_mem _ hj)
    have hilen : i < pop.length := hlt i (List.mem_cons_self ..)
    have hiN : (pop.getD i cr0).sgene < N ∧ (pop.getD i cr0).rgene < N :=
      hN _ (getD_mem pop i cr0 hilen)
    by_cases hlife : (pop.getD i cr0).lifespan > 1
    · -- carried-over slot
      obtain ⟨hpw, hmem⟩ := ih nid hrest hltr hn
      rw [buildNextGenAux_carry pop true winner lifespans i rest nid hlife]
      constructor
      · refine List.pairwise_cons.2 ⟨?_, hpw⟩
        intro x hx
        rcases hmem x hx with ⟨j, hj, hxs, hxr⟩ | ⟨hfs, hfr⟩
        · have hij : i ≠ j := fun hij => hirest (hij ▸ hj)
          exact disjoint_of_fields rfl rfl hxs hxr
            (hdisj i hilen j (hltr j hj) hij)
        · refine ⟨?_, ?_, ?_, ?_⟩
          · show (pop.getD i cr0).sgene ≠ x.sgene
            omega
          · show (pop.getD i cr0).sgene ≠ x.rgene
            omega
          · show (pop.getD i cr0).rgene ≠ x.sgene
            omega
          · show (pop.getD i cr0).rgene ≠ x.rgene
            omega
      · intro c hc
        rcases List.mem_cons.1 hc with rfl | hc'
        · exact Or.inl ⟨i, List.mem_cons_self .., rfl, rfl⟩
        · rcases hmem c hc' with ⟨j, hj, hxs, hxr⟩ | hfresh
          · exact Or.inl ⟨j, List.mem_cons_of_mem _ hj, hxs, hxr⟩
          · exact Or.inr hfresh
    · -- replaced slot, crossover allocates fresh ids nid, nid + 1
      obtain ⟨hpw, hmem⟩ := ih (nid + 2) hrest hltr (le_trans hn (by omega))
      rw [buildNextGenAux_cross pop winner lifespans i rest nid hlife]
      constructor
      · refine List.pairwise_cons.2 ⟨?_, hpw⟩
        intro x hx
        rcases hmem x hx with ⟨j, hj, hxs, hxr⟩ | ⟨hfs, hfr⟩
        · have hjN : (pop.getD j cr0).sgene < N ∧
              (pop.getD j cr0).rgene < N :=
            hN _ (getD_mem pop j cr0 (hltr j hj))
          have hxs' : x.sgene < nid := by omega
          have hxr' : x.rgene < nid := by omega
          refine ⟨?_, ?_, ?_, ?_⟩
          · show nid ≠ x.sgene
            omega
          · show nid ≠ x.rgene
            omega
          · show nid + 1 ≠ x.sgene
            omega
          · show nid + 1 ≠ x.rgene
            omega
        · refine ⟨?_, ?_, ?_, ?_⟩
          · show nid ≠ x.sgene
            omega
          · show nid ≠ x.rgene
            omega
          · show nid + 1 ≠ x.sgene
            omega
          · show nid + 1 ≠ x.rgene
            omega
      · intro c hc
        rcases List.mem_cons.1 hc with rfl | hc'
        · refine Or.inr ⟨?_, ?_⟩
          · show nid ≤ nid
            omega
          · show nid ≤ nid + 1
            omega
        · rcases hmem c hc' with ⟨j, hj, hxs, hxr⟩ | ⟨hfs, hfr⟩
          · exact Or.inl ⟨j, List.mem_cons_of_mem _ hj, hxs, hxr⟩
          · exact Or.inr ⟨by omega, by omega⟩

/-- C2 (amended): with crossover enabled — the configuration actually set
in the notebook — the replacement step preserves exclusive gene ownership:
if the current population's creatures hold pairwise disjoint Gene objects
(all allocated below `nextId`), then the next generation's creatures,
carried-over and freshly bred alike, hold pairwise disjoint Gene objects.
With crossover disabled the property fails (see the counterexample). -/
theorem C2_no_shared_genes_with_crossover (pop : List CreatureR)
    (winner lifespans : Nat → Nat) (nextId : Nat)
    (hN : ∀ c ∈ pop, c.sgene < nextId ∧ c.rgene < nextId)
    (hdisj : ∀ i, i < pop.length → ∀ j, j < pop.length → i ≠ j →
      DisjointGenes (pop.getD i cr0) (pop.getD j cr0)) :
    List.Pairwise DisjointGenes
      (buildNextGen pop true winner lifespans nextId).1 :=
  (buildNextGenAux_fresh pop winner lifespans nextId hN hdisj
    (List.range pop.length) nextId (List.nodup_range _)
    (fun _ hi => List.mem_range.1 hi) (Nat.le_refl _)).1

/-- Population used against C2: creature 0 (genes 0, 1) still has two
generations to live, creature 1 (genes 2, 3) expires now. -/
def c2pop : List CreatureR :=
  [{ sgene := 0, rgene := 1, fitness := 0, lifespan := 2 },
   { sgene := 2, rgene := 3, fitness := 0, lifespan := 1 }]

/-- C2 counterexample: with crossover disabled, slot 1 is rebred from
tournament winner 0 by reusing its Genes object without a copy, so the
carried-over creature 0 and the new creature 1 of the next generation own
the very same Gene objects — two live creatures share a Gene. -/
theorem C2_counterexample :
    ¬ List.Pairwise DisjointGenes
      (buildNextGen c2pop false (fun _ => 0) (fun _ => 1) 4).1 := by
  decide

/-- Population used to instantiate the amended C2. -/
def c2popW : List CreatureR :=
  [{ sgene := 0, rgene := 1, fitness := 0, lifespan := 2 },
   { sgene := 2, rgene := 3, fitness := 0, lifespan := 1 }]

/-- C2 witness: the amended theorem at a concrete population with
crossover enabled. -/
theorem C2_witness :
    List.Pairwise DisjointGenes
      (buildNextGen c2popW true (fun _ => 0) (fun _ => 1) 4).1 :=
  C2_no_shared_genes_with_crossover c2popW (fun _ => 0) (fun _ => 1) 4
    (by decide) (by decide)

/-! ## C3 -/

/-- Whether an embedded call succeeded (raised no exception). -/
def exceptOk {ε α : Type} : Except ε α → Bool
  | Except.ok _ => true
  | Except.error _ => false

theorem rngChoiceP_error_of_sum_ne (n : Nat) (p : List ℚ) (u : ℚ)
    (h : p.sum ≠ 1) : exceptOk (rngChoiceP n p u) = false := by
  unfold rngChoiceP
  split_ifs <;> rfl

/-- The configuration cell raises exactly when the `rng.choice` call inside
the environment's first `reset` does. -/
theorem configSetup_ok_iff (cfg : Config) (d : ℚ) (gd : Nat → Nat → ℚ)
    (ls : Nat → Nat) :
    exceptOk (configSetup cfg d gd ls)
      = exceptOk (rngChoiceP cfg.num_states cfg.state_dist d) := by
  unfold configSetup SignalingGameEnv.mkEnv SignalingGameEnv.reset
  cases rngChoiceP cfg.num_states cfg.state_dist d <;> rfl

/-- Configuration with invalid Gene bounds (min_bias above max_bias) and a
tournament larger than the population, but a valid state distribution. -/
def cfgBad : Config :=
  { num_states := 2, num_messages := 2, state_dist := [1/2, 1/2],
    pop_size := 2, min_bias := 1, max_bias := 0,
    init_bias := GeneInit.literal 0, tornament_size := 3,
    do_crossover := true, mutation_rate := 1/1000, lifespan_mean := 1 }

/-- The population that the configuration cell builds for `cfgBad`. -/
def c3pop : List Creature :=
  (((configSetup cfgBad 0 (fun _ _ => 0) (fun _ => 1)).toOption).map
    Prod.snd).getD []

/-- C3 counterexample: with `min_bias = 1` above `max_bias = 0` and
tournament size 3 above population size 2, the configuration cell still
completes without error — neither condition is rejected before the loop —
and the oversized tournament only surfaces when the loop's replacement
step draws the tournament sample. -/
theorem C3_counterexample :
    exceptOk (configSetup cfgBad 0 (fun _ _ => 0) (fun _ => 1)) = true ∧
    exceptOk (rngChoiceNoReplace c3pop cfgBad.tornament_size [0, 1, 2])
      = false := by
  constructor
  · rw [configSetup_ok_iff]
    norm_num [cfgBad, rngChoiceP, exceptOk]
  · have hlen : c3pop.length = 2 := by
      norm_num [c3pop, configSetup, SignalingGameEnv.mkEnv,
        SignalingGameEnv.reset, rngChoiceP, cumPick, Except.map, bind,
        Except.bind, Except.toOption, cfgBad]
    norm_num [rngChoiceNoReplace, hlen, cfgBad, exceptOk]

/-- C3 (amended): of the three checks the claim lists, only the
state-distribution one fires before the loop — a distribution that does
not sum to 1 makes environment construction, and so the whole
configuration cell, fail before any episode runs.  A configuration with a
valid distribution sets up successfully whatever the Gene bounds (min
above max is never rejected) and whatever the tournament size; an
oversized tournament is first rejected inside the loop, when the
replacement step samples the tournament without replacement. -/
theorem C3_validation_spec :
    (∀ (cfg : Config) (d : ℚ) (gd : Nat → Nat → ℚ) (ls : Nat → Nat),
       cfg.state_dist.sum ≠ 1 →
       exceptOk (configSetup cfg d gd ls) = false) ∧
    (∀ (cfg : Config) (d : ℚ) (gd : Nat → Nat → ℚ) (ls : Nat → Nat),
       cfg.state_dist.length = cfg.num_states →
       (∀ q ∈ cfg.state_dist, 0 ≤ q) →
       cfg.state_dist.sum = 1 →
       exceptOk (configSetup cfg d gd ls) = true) ∧
    (∀ (pop : List Creature) (k : Nat) (sel : List Nat),
       pop.length < k →
       exceptOk (rngChoiceNoReplace pop k sel) = false) := by
  refine ⟨?_, ?_, ?_⟩
  · intro cfg d gd ls h
    rw [configSetup_ok_iff]
    exact rngChoiceP_error_of_sum_ne _ _ _ h
  · intro cfg d gd ls hlen hnn hsum
    rw [configSetup_ok_iff]
    unfold rngChoiceP
    rw [if_neg (by simp [hlen]),
      if_neg (not_not_intro (List.all_eq_true.2
        fun x hx => by simpa using hnn x hx)),
      if_neg (by simp [hsum])]
    rfl
  · intro pop k sel h
    unfold rngChoiceNoReplace
    rw [if_pos h]
    rfl

/-- Same configuration as `cfgBad` but with a state distribution that does
not sum to 1. -/
def cfgBadDist : Config :=
  { cfgBad with state_dist := [1/2, 1/3] }

/-- C3 witness: the three parts of the amended theorem at concrete
configurations. -/
theorem C3_witness :
    exceptOk (configSetup cfgBadDist 0 (fun _ _ => 0) (fun _ => 1))
      = false ∧
    exceptOk (configSetup cfgBad 0 (fun _ _ => 0) (fun _ => 1)) = true ∧
    exceptOk (rngChoiceNoReplace ([] : List Creature) 1 []) = false :=
  ⟨C3_validation_spec.1 cfgBadDist 0 (fun _ _ => 0) (fun _ => 1)
     (by norm_num [cfgBadDist, cfgBad]),
   C3_validation_spec.2.1 cfgBad 0 (fun _ _ => 0) (fun _ => 1)
     (by norm_num [cfgBad]) (by norm_num [cfgBad]) (by norm_num [cfgBad]),
   C3_validation_spec.2.2 [] 1 [] (by norm_num)⟩

end M31
